import Mathlib

/-!
Shallow embedding of the proxy-selection logic of the `httpproxy` package
(`src/http/httpproxy/proxy.go`) together with the Go standard-library string
and net helpers the package calls.  Go strings are modelled as Lean `String`
(a list of characters); indices are character positions, which agree with
Go's byte positions for all the ASCII delimiters (`:`, `]`, `[`, `.`) this
code inspects.
-/

namespace HttpProxy

/-- Character predicate of Go's `unicode.IsSpace`: the Unicode White_Space
property (the finite set of code points with that property). -/
def goIsSpace (c : Char) : Bool :=
  (9 ≤ c.toNat && c.toNat ≤ 13) || c.toNat == 32 || c.toNat == 0x85 || c.toNat == 0xA0 ||
  c.toNat == 0x1680 || (0x2000 ≤ c.toNat && c.toNat ≤ 0x200A) ||
  c.toNat == 0x2028 || c.toNat == 0x2029 || c.toNat == 0x202F ||
  c.toNat == 0x205F || c.toNat == 0x3000

/-- List form of Go `strings.TrimSpace`: drop leading and trailing
White_Space characters. -/
def trimSpaceL (l : List Char) : List Char :=
  ((l.dropWhile goIsSpace).reverse.dropWhile goIsSpace).reverse

/-- Go `strings.TrimSpace`. -/
def trimSpace (s : String) : String := ⟨trimSpaceL s.data⟩

/-- Case mapping of a single character as Go `strings.ToLower` /
`unicode.ToLower` performs it: ASCII uppercase letters map down by 32, and
of the non-ASCII code points, U+0130 (LATIN CAPITAL LETTER I WITH DOT
ABOVE) and U+212A (KELVIN SIGN) — the only two whose Unicode simple lower
case lies inside ASCII — map to `i` and `k`.  Every other character is
returned unchanged; Go lower-cases many further non-ASCII characters, but
always to other non-ASCII characters, and no definition or theorem below
distinguishes two non-ASCII characters, so only the ASCII-crossing
mappings are material. -/
def charLower (c : Char) : Char :=
  if 65 ≤ c.toNat ∧ c.toNat ≤ 90 then Char.ofNat (c.toNat + 32)
  else if c.toNat = 0x130 then 'i'
  else if c.toNat = 0x212A then 'k'
  else c

/-- Go `strings.ToLower`. -/
def toLowerGo (s : String) : String := ⟨s.data.map charLower⟩

/-- Go `strings.LastIndex(s, c)` for a single-character needle: index of the
last occurrence, `-1` if absent. -/
def lastIndexC : List Char → Char → Int
  | [], _ => -1
  | x :: xs, c =>
    if 0 ≤ lastIndexC xs c then lastIndexC xs c + 1
    else if x == c then 0 else -1

/-- Go `strings.IndexByte(s, c)`: index of the first occurrence, `-1` if
absent. -/
def indexOfC : List Char → Char → Int
  | [], _ => -1
  | x :: xs, c =>
    if x == c then 0
    else if 0 ≤ indexOfC xs c then indexOfC xs c + 1 else -1

/-- Go `strings.Index(s, sub)`: index of the first occurrence of the
substring, `-1` if absent. -/
def indexOfSeq : List Char → List Char → Int
  | l, pat =>
    if pat.isPrefixOf l then 0
    else match l with
      | [] => -1
      | _ :: t =>
        if 0 ≤ indexOfSeq t pat then indexOfSeq t pat + 1 else -1

/-- Predicate `hasPort` from proxy.go: given "host", "host:port", or
"[ipv6::address]:port", report whether the string includes a port
(the last `:` occurs after the last `]`). -/
def hasPort (s : String) : Bool :=
  lastIndexC s.data ':' > lastIndexC s.data ']'

/-- Truncation `s[:strings.LastIndex(s, ":")]` used by `useProxy` to remove
the port from an address or pattern (only evaluated under `hasPort`). -/
def cutAtLastColon (s : String) : String :=
  ⟨s.data.take (lastIndexC s.data ':').toNat⟩

/-- Port-stripping step of `useProxy` (lines 136-138 and 145-147 of
proxy.go): drop the `:port` suffix when one is present. -/
def portStrip (s : String) : String :=
  if hasPort s then cutAtLastColon s else s

/-- Go `strings.Split(s, ",")` at the character-list level: split around every
comma; splitting the empty string yields one empty field. -/
def splitOnComma : List Char → List (List Char)
  | [] => [[]]
  | c :: t =>
    if c == ',' then [] :: splitOnComma t
    else
      match splitOnComma t with
      | h :: r => (c :: h) :: r
      | [] => [[c]]

/-- Go `strings.Split(s, ",")`. -/
def goSplit (s : String) : List String :=
  (splitOnComma s.data).map (fun l => ⟨l⟩)

/-- Function `isASCII` from proxy.go: no byte of the string is `>=
utf8.RuneSelf` (equivalently, every character is below U+0080). -/
def isASCII (s : String) : Bool :=
  s.data.all (fun c => c.toNat < 128)

/-- Decimal-digit scanner `dtoi` of Go `net`: read leading decimal digits,
returning the value and the number of characters consumed; fail (`none`)
when there is no digit or the value reaches the cap `0xFFFFFF`. -/
def dtoiGo : List Char → Nat → Nat → Option (Nat × Nat)
  | [], n, i => if i == 0 then none else some (n, i)
  | c :: t, n, i =>
    if '0' ≤ c ∧ c ≤ '9' then
      let n' := n * 10 + (c.toNat - 48)
      if 0xFFFFFF ≤ n' then none else dtoiGo t n' (i + 1)
    else if i == 0 then none else some (n, i)

/-- Go `net.dtoi` entry point. -/
def dtoi (l : List Char) : Option (Nat × Nat) := dtoiGo l 0 0

/-- Hexadecimal-digit scanner `xtoi` of Go `net`: read leading hex digits,
returning the value and the number of characters consumed; fail when there
is no digit or the value reaches the cap `0xFFFFFF`. -/
def xtoiGo : List Char → Nat → Nat → Option (Nat × Nat)
  | [], n, i => if i == 0 then none else some (n, i)
  | c :: t, n, i =>
    if '0' ≤ c ∧ c ≤ '9' then
      let n' := n * 16 + (c.toNat - 48)
      if 0xFFFFFF ≤ n' then none else xtoiGo t n' (i + 1)
    else if 'a' ≤ c ∧ c ≤ 'f' then
      let n' := n * 16 + (c.toNat - 97) + 10
      if 0xFFFFFF ≤ n' then none else xtoiGo t n' (i + 1)
    else if 'A' ≤ c ∧ c ≤ 'F' then
      let n' := n * 16 + (c.toNat - 65) + 10
      if 0xFFFFFF ≤ n' then none else xtoiGo t n' (i + 1)
    else if i == 0 then none else some (n, i)

/-- Go `net.xtoi` entry point. -/
def xtoi (l : List Char) : Option (Nat × Nat) := xtoiGo l 0 0

/-- An IP address as Go `net.IP`: a list of byte values.  The parsers below
always produce the 16-byte form. -/
abbrev IPBytes := List Nat

/-- Go `net.IPv4(a, b, c, d)`: the 16-byte IPv4-in-IPv6 representation. -/
def ipv4Bytes (a b c d : Nat) : IPBytes :=
  [0, 0, 0, 0, 0, 0, 0, 0, 0, 0, 0xFF, 0xFF, a, b, c, d]

/-- Field loop of Go `net.parseIPv4`: `k` fields remain to be read; fields
after the first are preceded by a dot; each field is a decimal number of at
most 255; the whole string must be consumed. -/
def parseIPv4Fields : Nat → List Char → List Nat → Option IPBytes
  | 0, s, acc =>
    if s.isEmpty then
      some (ipv4Bytes (acc.getD 0 0) (acc.getD 1 0) (acc.getD 2 0) (acc.getD 3 0))
    else none
  | k + 1, s, acc =>
    if s.isEmpty then none
    else
      let step : Option (List Char) :=
        if acc.isEmpty then some s
        else if s.headD ' ' == '.' then some (s.drop 1) else none
      match step with
      | none => none
      | some s' =>
        match dtoi s' with
        | none => none
        | some (n, c) =>
          if 255 < n then none
          else parseIPv4Fields k (s'.drop c) (acc ++ [n])

/-- Go `net.parseIPv4`: dotted-decimal form `d.d.d.d`. -/
def parseIPv4 (s : List Char) : Option IPBytes :=
  parseIPv4Fields 4 s []

/-- Ellipsis expansion performed after the parse loop of Go `net.parseIPv6`:
with fewer than 16 bytes an ellipsis must be present and is widened with
zeros; with all 16 bytes an ellipsis must be absent. -/
def ipv6Finish (acc : List Nat) (ellipsis : Option Nat) : Option IPBytes :=
  if acc.length < 16 then
    match ellipsis with
    | none => none
    | some e => some (acc.take e ++ List.replicate (16 - acc.length) 0 ++ acc.drop e)
  else
    match ellipsis with
    | some _ => none
    | none => some acc

/-- Main loop of Go `net.parseIPv6`: repeatedly read a 16-bit hex chunk
followed by `:`, detecting an embedded trailing IPv4 address and at most one
`::` ellipsis.  The loop runs while fewer than 16 bytes have been produced;
each pass adds two bytes, so the fuel of 16 with which `parseIPv6` starts
the loop is never exhausted. -/
def parseIPv6Loop : Nat → List Char → List Nat → Option Nat → Option IPBytes
  | 0, _, _, _ => none
  | fuel + 1, s, acc, ellipsis =>
    if acc.length < 16 then
      match xtoi s with
      | none => none
      | some (n, c) =>
        if 0xFFFF < n then none
        else if c < s.length && s.getD c ' ' == '.' then
          if ellipsis.isNone && acc.length ≠ 12 then none
          else if 16 < acc.length + 4 then none
          else
            match parseIPv4 s with
            | none => none
            | some ip4 => ipv6Finish (acc ++ ip4.drop 12) ellipsis
        else
          let acc' := acc ++ [n / 256, n % 256]
          let s' := s.drop c
          if s'.isEmpty then ipv6Finish acc' ellipsis
          else if s'.headD ' ' ≠ ':' ∨ s'.length == 1 then none
          else
            let s'' := s'.drop 1
            if s''.headD ' ' == ':' then
              if ellipsis.isSome then none
              else if (s''.drop 1).isEmpty then ipv6Finish acc' (some acc'.length)
              else parseIPv6Loop fuel (s''.drop 1) acc' (some acc'.length)
            else parseIPv6Loop fuel s'' acc' ellipsis
    else if s.isEmpty then ipv6Finish acc ellipsis
    else none

/-- Go `net.parseIPv6` (hex-groups form, possibly with a `::` ellipsis and an
embedded trailing IPv4 address). -/
def parseIPv6 (s : List Char) : Option IPBytes :=
  if 2 ≤ s.length && s.getD 0 ' ' == ':' && s.getD 1 ' ' == ':' then
    if (s.drop 2).isEmpty then some (List.replicate 16 0)
    else parseIPv6Loop 16 (s.drop 2) [] (some 0)
  else parseIPv6Loop 16 s [] none

/-- Go `net.ParseIP`: scan for the first `.` or `:`; a `.` selects the IPv4
parser, a `:` the IPv6 parser; a string with neither is not an IP address. -/
def parseIP (s : String) : Option IPBytes :=
  match s.data.find? (fun c => c == '.' || c == ':') with
  | some c => if c == '.' then parseIPv4 s.data else parseIPv6 s.data
  | none => none

/-- Go `net.IP.To4`: a 4-byte address, or the 4-byte part of a 16-byte
IPv4-in-IPv6 address; `none` otherwise. -/
def ipTo4 (ip : IPBytes) : Option IPBytes :=
  if ip.length == 4 then some ip
  else if ip.length == 16 && ip.take 10 == List.replicate 10 0 &&
      ip.getD 10 0 == 0xFF && ip.getD 11 0 == 0xFF then
    some (ip.drop 12)
  else none

/-- Go `net.IPv6loopback` (`::1`). -/
def ipv6Loopback : IPBytes := List.replicate 15 0 ++ [1]

/-- Go `net.IP.IsLoopback`: an IPv4 address in 127.0.0.0/8, or the IPv6
loopback `::1`. -/
def isLoopback (ip : IPBytes) : Bool :=
  match ipTo4 ip with
  | some ip4 => ip4.headD 0 == 127
  | none => ip == ipv6Loopback

/-- Go `net.SplitHostPort`: split "host:port" or "[host]:port" around the
last colon, validating bracket placement; `none` stands for the error
returns (missing port, too many colons, stray brackets). -/
def splitHostPort (hostport : String) : Option (String × String) :=
  let l := hostport.data
  let i := lastIndexC l ':'
  if i < 0 then none
  else if l.headD ' ' == '[' then
    let endB := indexOfC l ']'
    if endB < 0 then none
    else if endB + 1 == l.length then none
    else if endB + 1 == i then
      if 0 ≤ indexOfC (l.drop 1) '[' then none
      else if 0 ≤ indexOfC (l.drop (endB.toNat + 1)) ']' then none
      else some (⟨(l.take endB.toNat).drop 1⟩, ⟨l.drop (i.toNat + 1)⟩)
    else none
  else
    let host := l.take i.toNat
    if 0 ≤ indexOfC host ':' then none
    else if 0 ≤ indexOfC l '[' then none
    else if 0 ≤ indexOfC l ']' then none
    else some (⟨host⟩, ⟨l.drop (i.toNat + 1)⟩)

/-- Go `net.JoinHostPort`: bracket the host when it contains a colon (a
literal IPv6 address), then append `:port`. -/
def joinHostPort (host port : String) : String :=
  if 0 ≤ indexOfC host.data ':' then ⟨'[' :: host.data ++ ']' :: ':' :: port.data⟩
  else ⟨host.data ++ ':' :: port.data⟩

/-- A parsed URL, restricted to the two fields of Go `url.URL` this package
reads: `Scheme` and `Host` (a host possibly carrying a port). -/
structure URL where
  scheme : String
  host : String
deriving DecidableEq, Repr

/-- Go `net/url.stripPort`, the body of `url.URL.Hostname()`: everything
before the first colon, with the brackets of an IPv6 literal removed. -/
def stripPort (hostport : String) : String :=
  let l := hostport.data
  let colon := indexOfC l ':'
  if colon < 0 then hostport
  else
    let i := indexOfC l ']'
    if 0 ≤ i then
      let h := l.take i.toNat
      if h.headD ' ' == '[' then ⟨h.drop 1⟩ else ⟨h⟩
    else ⟨l.take colon.toNat⟩

/-- Go `net/url.portOnly`, the body of `url.URL.Port()`: the part after
`]:` for a bracketed host, empty when brackets carry no port, and the part
after the first colon otherwise. -/
def portOnly (hostport : String) : String :=
  let l := hostport.data
  let colon := indexOfC l ':'
  if colon < 0 then ""
  else
    let i := indexOfSeq l [']', ':']
    if 0 ≤ i then ⟨l.drop (i.toNat + 2)⟩
    else if 0 ≤ indexOfC l ']' then ""
    else ⟨l.drop (colon.toNat + 1)⟩

/-- Map `portMap` from proxy.go: default port per scheme; an unknown scheme
yields the map's zero value, the empty string. -/
def portMap (scheme : String) : String :=
  if scheme == "http" then "80"
  else if scheme == "https" then "443"
  else if scheme == "socks5" then "1080"
  else ""

/-- Function `idnaASCII` from proxy.go, parameterised by the conversion it
delegates to.  The parameter `toASCII` is modelled from the spec: the body of
`idna.Lookup.ToASCII` (golang.org/x/net/idna) is not under src/; the spec
treats it as an external capability that converts a Unicode hostname to its
ASCII-compatible encoding, or fails. -/
def idnaASCII (toASCII : String → Option String) (v : String) : Option String :=
  if isASCII v then some v else toASCII v

/-- Function `canonicalAddr` from proxy.go: the request URL's hostname,
IDNA-converted when the conversion succeeds, joined with the explicit port
or the scheme's default port. -/
def canonicalAddr (toASCII : String → Option String) (url : URL) : String :=
  let addr := stripPort url.host
  let addr :=
    match idnaASCII toASCII addr with
    | some v => v
    | none => addr
  let port := portOnly url.host
  let port := if port == "" then portMap url.scheme else port
  joinHostPort addr port

/-- The configuration structure `Config` from proxy.go. -/
structure Config where
  HTTPProxy : String
  HTTPSProxy : String
  NoProxy : String
deriving DecidableEq, Repr

/-- Matching steps of the `NO_PROXY` pattern loop (lines 148-162 of
proxy.go) for an already lower-cased, trimmed and port-stripped pattern `p`:
exact match; ignore a pattern whose host part is empty; leading-dot pattern
matches a suffix or the pattern minus its dot; dotless pattern matches a
suffix preceded by a literal dot (the character access is guarded in the
source by the preceding exact-match return, which makes the index
in-bounds). -/
def noProxyMatchStripped (addr p : String) : Bool :=
  if addr == p then true
  else if p.length == 0 then false
  else if p.data.headD ' ' == '.' then
    p.data.isSuffixOf addr.data || addr == ⟨p.data.drop 1⟩
  else
    p.data.isSuffixOf addr.data &&
      addr.data.get? (addr.data.length - p.data.length - 1) == some '.'

/-- Body of the `NO_PROXY` pattern loop of `useProxy` (lines 140-163 of
proxy.go) for one comma-separated entry `p0`, against the already
lower-cased, trimmed and port-stripped address: `true` means the loop
returns `false` (skip proxying) at this entry, `false` means `continue`. -/
def noProxyMatch (addr : String) (p0 : String) : Bool :=
  if (toLowerGo (trimSpace p0)).length == 0 then false
  else noProxyMatchStripped addr (portStrip (toLowerGo (trimSpace p0)))

/-- Loopback test of `useProxy` (lines 124-128 of proxy.go): the host parses
as an IP address and that address is a loopback address. -/
def loopbackIP (host : String) : Bool :=
  match parseIP host with
  | some ip => isLoopback ip
  | none => false

/-- Method `useProxy` from proxy.go: whether requests to `addr` should use a
proxy according to the `NoProxy` configuration. -/
def useProxy (cfg : Config) (addr : String) : Bool :=
  if addr.length == 0 then true
  else
    match splitHostPort addr with
    | none => false
    | some (host, _) =>
      if host == "localhost" then false
      else if loopbackIP host then false
      else if cfg.NoProxy == "*" then false
      else
        let addr' := portStrip (toLowerGo (trimSpace addr))
        if (goSplit cfg.NoProxy).any (fun p => noProxyMatch addr' p) then false
        else true

/-- Candidate-selection step of `ProxyForURL` (lines 79-85 of proxy.go):
`HTTPSProxy` for an https request when non-empty, else `HTTPProxy`. -/
def selectedProxy (cfg : Config) (reqURL : URL) : String :=
  let proxy := if reqURL.scheme == "https" then cfg.HTTPSProxy else ""
  if proxy == "" then cfg.HTTPProxy else proxy

/-- The error value built by `ProxyForURL`'s
`fmt.Errorf("invalid proxy address %q: %v", proxy, err)`, modelled as a
structure carrying the two format arguments: the candidate proxy string and
the original parse failure. -/
structure ProxyError where
  proxy : String
  err : String
deriving DecidableEq, Repr

/-- Method `ProxyForURL` from proxy.go, parameterised by the URL-parsing
capability `parse` (Go `url.Parse`, an external collaborator per the spec)
and the IDNA conversion `toASCII`.  `Except.ok none` is Go's `(nil, nil)`
("no proxy, no error"). -/
def ProxyForURL (parse : String → Except String URL)
    (toASCII : String → Option String) (cfg : Config) (reqURL : URL) :
    Except ProxyError (Option URL) :=
  if selectedProxy cfg reqURL == "" then .ok none
  else if useProxy cfg (canonicalAddr toASCII reqURL) then
    match parse (selectedProxy cfg reqURL) with
    | .ok proxyURL =>
      if !(proxyURL.scheme == "http") && !(proxyURL.scheme == "https") &&
          !(proxyURL.scheme == "socks5") then
        match parse ("http://" ++ selectedProxy cfg reqURL) with
        | .ok repaired => .ok (some repaired)
        | .error _ => .ok (some proxyURL)
      else .ok (some proxyURL)
    | .error e =>
      match parse ("http://" ++ selectedProxy cfg reqURL) with
      | .ok repaired => .ok (some repaired)
      | .error _ => .error ⟨selectedProxy cfg reqURL, e⟩
  else .ok none

/-- Parse stub for the C1 counterexample: the candidate `ftp://host` parses
successfully with the unrecognized scheme `ftp`, and every other string
(in particular the repaired `http://ftp://host`) fails to parse. -/
def parseC1 : String → Except String URL := fun s =>
  if s == "ftp://host" then .ok ⟨"ftp", "host"⟩ else .error "parse failure"

/-- Parse stub for the C7 witness: the bare candidate `127.0.0.1:8080` fails
to parse and only its `http://`-prefixed repair parses. -/
def parseC7 : String → Except String URL := fun s =>
  if s == "http://127.0.0.1:8080" then .ok ⟨"http", "127.0.0.1:8080"⟩
  else .error "missing protocol scheme"

/-- IDNA stub for the C10 counterexample, modelling the UTS#46 mapping step
of `idna.Lookup.ToASCII` on the Kelvin sign: U+212A maps to `k`, so the
host `\u212A.com` converts to the ASCII name `k.com`. -/
def toASCIIKelvin : String → Option String := fun s =>
  if s == "\u212A.com" then some "k.com" else none

/-! Helper lemmas shared by the claim theorems. -/

lemma data_ne_nil_of_ne_empty {a : String} (h : a ≠ "") : a.data ≠ [] :=
  fun hd => h (String.ext hd)

lemma length_beq_zero_eq_false {a : String} (h : a ≠ "") : (a.length == 0) = false := by
  apply beq_false_of_ne
  intro h0
  exact data_ne_nil_of_ne_empty h (List.length_eq_zero.mp h0)

lemma splitHostPort_some_ne_empty {addr : String} {hp : String × String}
    (h : splitHostPort addr = some hp) : addr ≠ "" := by
  intro he
  subst he
  rw [show splitHostPort "" = none from rfl] at h
  exact Option.noConfusion h

lemma useProxy_eq_not_any {cfg : Config} {addr host port : String}
    (hsplit : splitHostPort addr = some (host, port))
    (hlocal : (host == "localhost") = false)
    (hloop : loopbackIP host = false)
    (hstar : (cfg.NoProxy == "*") = false) :
    useProxy cfg addr =
      !((goSplit cfg.NoProxy).any
        (fun p => noProxyMatch (portStrip (toLowerGo (trimSpace addr))) p)) := by
  have hne := splitHostPort_some_ne_empty hsplit
  unfold useProxy
  rw [length_beq_zero_eq_false hne, hsplit]
  simp only [hlocal, hloop, hstar, Bool.false_eq_true, if_false]
  cases hany : (goSplit cfg.NoProxy).any
      (fun p => noProxyMatch (portStrip (toLowerGo (trimSpace addr))) p) <;>
    simp [hany]

lemma useProxy_star {cfg : Config} {addr : String}
    (hstar : cfg.NoProxy = "*") (hne : addr ≠ "") :
    useProxy cfg addr = false := by
  unfold useProxy
  rw [length_beq_zero_eq_false hne]
  cases hsplit : splitHostPort addr with
  | none => rfl
  | some hp =>
    obtain ⟨host, port⟩ := hp
    by_cases hl : (host == "localhost") = true
    · simp [hl]
    · by_cases hip : loopbackIP host = true
      · simp [hl, hip]
      · simp [hl, hip, hstar]

lemma joinHostPort_ne_empty (h p : String) : joinHostPort h p ≠ "" := by
  unfold joinHostPort
  by_cases hc : 0 ≤ indexOfC h.data ':'
  · simp only [hc, if_pos]
    intro he
    exact List.cons_ne_nil _ _ (congrArg String.data he)
  · simp only [hc, if_neg, not_false_eq_true]
    intro he
    have := congrArg String.data he
    cases hd : h.data with
    | nil => rw [hd] at this; exact List.cons_ne_nil _ _ this
    | cons c t => rw [hd] at this; exact List.cons_ne_nil _ _ this

lemma canonicalAddr_ne_empty (toASCII : String → Option String) (u : URL) :
    canonicalAddr toASCII u ≠ "" :=
  joinHostPort_ne_empty _ _

lemma loopbackIP_true_of {host : String} {ip : IPBytes}
    (hip : parseIP host = some ip) (hl : isLoopback ip = true) :
    loopbackIP host = true := by
  unfold loopbackIP
  rw [hip]
  exact hl

lemma splitOnComma_no_comma {l : List Char} (h : ',' ∉ l) : splitOnComma l = [l] := by
  induction l with
  | nil => rfl
  | cons c t ih =>
    have hc : (c == ',') = false := by
      apply beq_false_of_ne
      intro he
      exact h (he ▸ List.mem_cons_self c t)
    have ht : ',' ∉ t := fun hm => h (List.mem_cons_of_mem _ hm)
    unfold splitOnComma
    simp only [hc, Bool.false_eq_true, if_false, ih ht]

lemma goSplit_no_comma {s : String} (h : ',' ∉ s.data) : goSplit s = [s] := by
  unfold goSplit
  rw [splitOnComma_no_comma h]
  rfl

/-! Claim theorems. -/

/-- C1 counterexample: with a candidate proxy string that parses successfully
with the unrecognized scheme `ftp` while the `http://`-prefixed repair
re-parse fails, `ProxyForURL` returns the original unrecognized-scheme URL
with no error — not "no proxy" (`none`) as the claim states. -/
theorem claim1_counterexample :
    parseC1 "ftp://host" = .ok ⟨"ftp", "host"⟩ ∧
    parseC1 ("http://" ++ "ftp://host") = .error "parse failure" ∧
    ProxyForURL parseC1 (fun _ => none) ⟨"ftp://host", "", ""⟩ ⟨"http", "example.com"⟩ =
      .ok (some ⟨"ftp", "host"⟩) ∧
    ProxyForURL parseC1 (fun _ => none) ⟨"ftp://host", "", ""⟩ ⟨"http", "example.com"⟩ ≠
      .ok none := by
  refine ⟨rfl, rfl, rfl, ?_⟩
  intro h
  exact Option.noConfusion (Except.ok.inj h)

/-- C1 (amended): for every request URL and Configuration where the selected
candidate proxy string parses successfully as a URL but with a scheme
outside {http, https, socks5}, and re-parsing the string with an `http://`
prefix prepended also fails, `ProxyForURL` returns the originally parsed
unrecognized-scheme URL and no error. -/
theorem claim1_amended (parse : String → Except String URL)
    (toASCII : String → Option String) (cfg : Config) (u : URL) (pu : URL) (e2 : String)
    (hne : selectedProxy cfg u ≠ "")
    (huse : useProxy cfg (canonicalAddr toASCII u) = true)
    (hparse : parse (selectedProxy cfg u) = .ok pu)
    (hscheme : (!(pu.scheme == "http") && !(pu.scheme == "https") &&
      !(pu.scheme == "socks5")) = true)
    (hrepair : parse ("http://" ++ selectedProxy cfg u) = .error e2) :
    ProxyForURL parse toASCII cfg u = .ok (some pu) := by
  unfold ProxyForURL
  rw [beq_false_of_ne hne]
  simp only [Bool.false_eq_true, if_false, huse, if_true, hparse, hscheme, hrepair]

/-- C1 witness for the amended theorem: a concrete instantiation with the
stub parser and an otherwise empty configuration. -/
theorem claim1_witness :
    ProxyForURL parseC1 (fun _ => none) ⟨"ftp://host", "", ""⟩ ⟨"http", "example.com"⟩ =
      .ok (some ⟨"ftp", "host"⟩) :=
  claim1_amended parseC1 (fun _ => none) ⟨"ftp://host", "", ""⟩ ⟨"http", "example.com"⟩
    ⟨"ftp", "host"⟩ "parse failure" (by decide) (by decide) rfl (by decide) rfl

/-- C8: the claim that with `NoProxy = ":1"` every address not excluded by
the loopback rule is allowed fails at the canonical address `":80"` (empty
host part): the port-stripped pattern and the port-stripped address are both
empty and compare equal at the exact-match test, which precedes the
malformed-entry check, so `useProxy` skips proxying.  For an address with a
non-empty host the malformed entry is indeed ignored and no error or panic
occurs. -/
theorem claim8_code_bug_eval :
    useProxy ⟨"", "", ":1"⟩ ":80" = false ∧
    useProxy ⟨"", "", ":1"⟩ "example.com:80" = true := by
  exact ⟨rfl, rfl⟩

/-- C9: `useProxy` compares the host against the literal `"localhost"`
before the address is lower-cased, so with an empty `NoProxy` the address
`LOCALHOST:80` is proxied (returns `true`) while `localhost:80` is not. -/
theorem claim9_localhost_case_sensitive (cfg : Config) (h : cfg.NoProxy = "") :
    useProxy cfg "LOCALHOST:80" = true ∧ useProxy cfg "localhost:80" = false := by
  obtain ⟨a, b, n⟩ := cfg
  have hn : n = "" := h
  subst hn
  exact ⟨rfl, rfl⟩

/-- C9 witness: concrete configuration with empty `NoProxy`. -/
theorem claim9_witness :
    useProxy ⟨"proxy", "", ""⟩ "LOCALHOST:80" = true ∧
    useProxy ⟨"proxy", "", ""⟩ "localhost:80" = false :=
  claim9_localhost_case_sensitive ⟨"proxy", "", ""⟩ rfl

/-- C6: the candidate proxy string selected by `ProxyForURL` is `HTTPSProxy`
exactly when the request scheme is `https` and `HTTPSProxy` is non-empty,
and `HTTPProxy` in every other case; an empty candidate yields "no proxy, no
error"; hence an entirely empty Configuration yields `(nil, nil)` for any
request. -/
theorem claim6_candidate_selection :
    (∀ (cfg : Config) (u : URL),
      selectedProxy cfg u =
        if u.scheme = "https" ∧ cfg.HTTPSProxy ≠ "" then cfg.HTTPSProxy
        else cfg.HTTPProxy) ∧
    (∀ (parse : String → Except String URL) (toASCII : String → Option String)
      (cfg : Config) (u : URL), selectedProxy cfg u = "" →
      ProxyForURL parse toASCII cfg u = .ok none) ∧
    (∀ (parse : String → Except String URL) (toASCII : String → Option String)
      (u : URL), ProxyForURL parse toASCII ⟨"", "", ""⟩ u = .ok none) := by
  have hsel : ∀ (cfg : Config) (u : URL),
      selectedProxy cfg u =
        if u.scheme = "https" ∧ cfg.HTTPSProxy ≠ "" then cfg.HTTPSProxy
        else cfg.HTTPProxy := by
    intro cfg u
    unfold selectedProxy
    by_cases hs : u.scheme = "https"
    · by_cases hh : cfg.HTTPSProxy = ""
      · simp [hs, hh]
      · simp [hs, hh, beq_false_of_ne hh]
    · simp [hs, beq_false_of_ne hs]
  have hempty : ∀ (parse : String → Except String URL)
      (toASCII : String → Option String) (cfg : Config) (u : URL),
      selectedProxy cfg u = "" → ProxyForURL parse toASCII cfg u = .ok none := by
    intro parse toASCII cfg u h
    unfold ProxyForURL
    simp [h]
  refine ⟨hsel, hempty, ?_⟩
  intro parse toASCII u
  apply hempty
  rw [hsel]
  simp

/-- C6 witness: empty configuration at a concrete request. -/
theorem claim6_witness :
    ProxyForURL (fun _ => .error "unused") (fun _ => none) ⟨"", "", ""⟩
      ⟨"https", "secure.tld"⟩ = .ok none :=
  claim6_candidate_selection.2.2 (fun _ => .error "unused") (fun _ => none)
    ⟨"https", "secure.tld"⟩

/-- C2: for every canonical address whose host part is the literal
`localhost` or parses as a loopback IP address, and for every configuration
(hence every `NoProxy` value), `useProxy` skips proxying; the rule precedes
the `NoProxy` patterns and cannot be overridden by them. -/
theorem claim2_loopback_unconditional (cfg : Config) (addr host port : String)
    (hsplit : splitHostPort addr = some (host, port))
    (hloop : host = "localhost" ∨ ∃ ip, parseIP host = some ip ∧ isLoopback ip = true) :
    useProxy cfg addr = false := by
  have hne := splitHostPort_some_ne_empty hsplit
  unfold useProxy
  rw [length_beq_zero_eq_false hne, hsplit]
  rcases hloop with h | ⟨ip, hip, hl⟩
  · simp [h]
  · by_cases hlh : (host == "localhost") = true
    · simp [hlh]
    · simp [hlh, loopbackIP_true_of hip hl]

/-- C2 witness: the literal `localhost`, an IPv4 loopback and the IPv6
loopback, each with a `NoProxy` that could not exclude them on its own. -/
theorem claim2_witness :
    useProxy ⟨"", "", "unrelated.com"⟩ "localhost:80" = false ∧
    useProxy ⟨"", "", ""⟩ "127.0.0.1:8080" = false ∧
    useProxy ⟨"", "", "x"⟩ "[::1]:443" = false :=
  ⟨claim2_loopback_unconditional ⟨"", "", "unrelated.com"⟩ "localhost:80"
      "localhost" "80" rfl (Or.inl rfl),
   claim2_loopback_unconditional ⟨"", "", ""⟩ "127.0.0.1:8080"
      "127.0.0.1" "8080" rfl (Or.inr ⟨ipv4Bytes 127 0 0 1, rfl, rfl⟩),
   claim2_loopback_unconditional ⟨"", "", "x"⟩ "[::1]:443"
      "::1" "443" rfl (Or.inr ⟨ipv6Loopback, rfl, rfl⟩)⟩

/-- C5: with `NoProxy = "*"`, `useProxy` skips proxying for every non-empty
canonical address that splits into host and port (the loopback rule, checked
first, yields the same result), and consequently `ProxyForURL` returns no
proxy and no error for every request under such a configuration. -/
theorem claim5_star_disables_all :
    (∀ (cfg : Config) (addr host port : String), cfg.NoProxy = "*" → addr ≠ "" →
      splitHostPort addr = some (host, port) → useProxy cfg addr = false) ∧
    (∀ (parse : String → Except String URL) (toASCII : String → Option String)
      (cfg : Config) (u : URL), cfg.NoProxy = "*" →
      ProxyForURL parse toASCII cfg u = .ok none) := by
  constructor
  · intro cfg addr host port hstar hne _
    exact useProxy_star hstar hne
  · intro parse toASCII cfg u hstar
    unfold ProxyForURL
    by_cases hsel : (selectedProxy cfg u == "") = true
    · simp [hsel]
    · have huse : useProxy cfg (canonicalAddr toASCII u) = false :=
        useProxy_star hstar (canonicalAddr_ne_empty toASCII u)
      simp [hsel, huse]

/-- C5 witness: a concrete address and a concrete request under
`NoProxy = "*"` with a proxy configured. -/
theorem claim5_witness :
    useProxy ⟨"proxy", "", "*"⟩ "example.com:80" = false ∧
    ProxyForURL (fun _ => .ok ⟨"http", "proxy"⟩) (fun _ => none)
      ⟨"proxy", "", "*"⟩ ⟨"http", "example.com"⟩ = .ok none :=
  ⟨claim5_star_disables_all.1 ⟨"proxy", "", "*"⟩ "example.com:80"
      "example.com" "80" rfl (by decide) rfl,
   claim5_star_disables_all.2 (fun _ => .ok ⟨"http", "proxy"⟩) (fun _ => none)
      ⟨"proxy", "", "*"⟩ ⟨"http", "example.com"⟩ rfl⟩

/-- C7: whenever the candidate fails to parse or parses with a scheme
outside {http, https, socks5}, the string is re-parsed with `http://`
prepended: a successful re-parse is returned with no error (even when the
original parse failed), and when both the original parse and the re-parse
fail the result is an error carrying the candidate string and the original
parse failure. -/
theorem claim7_repair_paths (parse : String → Except String URL)
    (toASCII : String → Option String) (cfg : Config) (u : URL)
    (hne : selectedProxy cfg u ≠ "")
    (huse : useProxy cfg (canonicalAddr toASCII u) = true) :
    (∀ (e : String) (ru : URL), parse (selectedProxy cfg u) = .error e →
      parse ("http://" ++ selectedProxy cfg u) = .ok ru →
      ProxyForURL parse toASCII cfg u = .ok (some ru)) ∧
    (∀ (pu ru : URL), parse (selectedProxy cfg u) = .ok pu →
      (!(pu.scheme == "http") && !(pu.scheme == "https") &&
        !(pu.scheme == "socks5")) = true →
      parse ("http://" ++ selectedProxy cfg u) = .ok ru →
      ProxyForURL parse toASCII cfg u = .ok (some ru)) ∧
    (∀ (e e2 : String), parse (selectedProxy cfg u) = .error e →
      parse ("http://" ++ selectedProxy cfg u) = .error e2 →
      ProxyForURL parse toASCII cfg u = .error ⟨selectedProxy cfg u, e⟩) := by
  refine ⟨?_, ?_, ?_⟩
  · intro e ru hparse hrepair
    unfold ProxyForURL
    rw [beq_false_of_ne hne]
    simp only [Bool.false_eq_true, if_false, huse, if_true, hparse, hrepair]
  · intro pu ru hparse hscheme hrepair
    unfold ProxyForURL
    rw [beq_false_of_ne hne]
    simp only [Bool.false_eq_true, if_false, huse, if_true, hparse, hscheme, hrepair]
  · intro e e2 hparse hrepair
    unfold ProxyForURL
    rw [beq_false_of_ne hne]
    simp only [Bool.false_eq_true, if_false, huse, if_true, hparse, hrepair]

/-- C7 witness: the bare-host repair path at `127.0.0.1:8080`, and the
both-parses-fail error path at a candidate no parse accepts. -/
theorem claim7_witness :
    ProxyForURL parseC7 (fun _ => none) ⟨"127.0.0.1:8080", "", ""⟩
      ⟨"http", "example.com"⟩ = .ok (some ⟨"http", "127.0.0.1:8080"⟩) ∧
    ProxyForURL (fun _ => .error "bad") (fun _ => none) ⟨"%%", "", ""⟩
      ⟨"http", "example.com"⟩ = .error ⟨"%%", "bad"⟩ :=
  ⟨(claim7_repair_paths parseC7 (fun _ => none) ⟨"127.0.0.1:8080", "", ""⟩
      ⟨"http", "example.com"⟩ (by decide) (by decide)).1
      "missing protocol scheme" ⟨"http", "127.0.0.1:8080"⟩ rfl rfl,
   (claim7_repair_paths (fun _ => .error "bad") (fun _ => none) ⟨"%%", "", ""⟩
      ⟨"http", "example.com"⟩ (by decide) (by decide)).2.2 "bad" "bad" rfl rfl⟩

lemma useProxy_single_token {hp hsp tok addr host port : String}
    (hsplit : splitHostPort addr = some (host, port))
    (hlocal : (host == "localhost") = false)
    (hloop : loopbackIP host = false)
    (hstar : (tok == "*") = false)
    (hcomma : ',' ∉ tok.data) :
    useProxy ⟨hp, hsp, tok⟩ addr =
      !(noProxyMatch (portStrip (toLowerGo (trimSpace addr))) tok) := by
  rw [useProxy_eq_not_any hsplit hlocal hloop hstar]
  have hnp : (⟨hp, hsp, tok⟩ : Config).NoProxy = tok := rfl
  rw [hnp, goSplit_no_comma hcomma]
  simp [List.any_cons]

lemma bool_not_eq_false {b : Bool} : ((!b) = false) ↔ (b = true) := by
  cases b <;> simp

lemma noProxyMatchStripped_no_dot_iff {addr p : String} (hpne : p ≠ "")
    (hdot : p.data.headD ' ' ≠ '.') :
    noProxyMatchStripped addr p = true ↔
      (addr = p ∨ (p.data.isSuffixOf addr.data = true ∧
        addr.data.get? (addr.data.length - p.data.length - 1) = some '.')) := by
  unfold noProxyMatchStripped
  by_cases heq : addr = p
  · simp [heq]
  · rw [beq_false_of_ne heq]
    simp only [Bool.false_eq_true, if_false]
    rw [length_beq_zero_eq_false hpne]
    simp only [Bool.false_eq_true, if_false]
    rw [beq_false_of_ne hdot]
    simp only [Bool.false_eq_true, if_false]
    simp [Bool.and_eq_true, beq_iff_eq, heq]

lemma noProxyMatchStripped_dot_iff {addr p : String} (hpne : p ≠ "")
    (hdot : p.data.headD ' ' = '.') :
    noProxyMatchStripped addr p = true ↔
      (p.data.isSuffixOf addr.data = true ∨ addr = ⟨p.data.drop 1⟩) := by
  unfold noProxyMatchStripped
  by_cases heq : addr = p
  · constructor
    · intro _
      apply Or.inl
      rw [heq, List.isSuffixOf_iff_suffix]
    · intro _
      simp [heq]
  · rw [beq_false_of_ne heq]
    simp only [Bool.false_eq_true, if_false]
    rw [length_beq_zero_eq_false hpne]
    simp only [Bool.false_eq_true, if_false]
    rw [hdot]
    simp [Bool.or_eq_true_iff, beq_iff_eq]

/-- C3: under a single-entry `NoProxy` whose processed token is non-empty
and does not start with a dot, and for a canonical address not excluded by
the loopback rule, `useProxy` skips proxying exactly when the lower-cased,
port-stripped host equals the token, or ends with the token with the
character immediately preceding that suffix being a literal dot. -/
theorem claim3_dotless_token_match (hp hsp tok addr host port p' addr' : String)
    (hsplit : splitHostPort addr = some (host, port))
    (hlocal : host ≠ "localhost")
    (hloop : loopbackIP host = false)
    (hstar : tok ≠ "*")
    (hcomma : ',' ∉ tok.data)
    (hp' : p' = portStrip (toLowerGo (trimSpace tok)))
    (hpne : p' ≠ "")
    (hdot : p'.data.headD ' ' ≠ '.')
    (haddr' : addr' = portStrip (toLowerGo (trimSpace addr))) :
    useProxy ⟨hp, hsp, tok⟩ addr = false ↔
      (addr' = p' ∨ (p'.data.isSuffixOf addr'.data = true ∧
        addr'.data.get? (addr'.data.length - p'.data.length - 1) = some '.')) := by
  rw [useProxy_single_token hsplit (beq_false_of_ne hlocal) hloop
    (beq_false_of_ne hstar) hcomma, ← haddr']
  have hp0 : toLowerGo (trimSpace tok) ≠ "" := by
    intro h0
    apply hpne
    rw [hp', h0]
    rfl
  unfold noProxyMatch
  rw [length_beq_zero_eq_false hp0]
  simp only [Bool.false_eq_true, if_false]
  rw [← hp', bool_not_eq_false]
  exact noProxyMatchStripped_no_dot_iff hpne hdot

/-- C3 witness: the token `example.com` matches `example.com:80` and
`foo.example.com:80` but not `fooexample.com:80`. -/
theorem claim3_witness :
    (useProxy ⟨"", "", "example.com"⟩ "example.com:80" = false ∧
     useProxy ⟨"", "", "example.com"⟩ "foo.example.com:80" = false) ∧
    useProxy ⟨"", "", "example.com"⟩ "fooexample.com:80" = true := by
  refine ⟨⟨?_, ?_⟩, ?_⟩
  · exact (claim3_dotless_token_match "" "" "example.com" "example.com:80"
      "example.com" "80" "example.com" "example.com" rfl (by decide) rfl
      (by decide) (by decide) rfl (by decide) (by decide) rfl).mpr (Or.inl rfl)
  · exact (claim3_dotless_token_match "" "" "example.com" "foo.example.com:80"
      "foo.example.com" "80" "example.com" "foo.example.com" rfl (by decide) rfl
      (by decide) (by decide) rfl (by decide) (by decide) rfl).mpr
      (Or.inr ⟨rfl, rfl⟩)
  · have h := claim3_dotless_token_match "" "" "example.com" "fooexample.com:80"
      "fooexample.com" "80" "example.com" "fooexample.com" rfl (by decide) rfl
      (by decide) (by decide) rfl (by decide) (by decide) rfl
    cases hb : useProxy ⟨"", "", "example.com"⟩ "fooexample.com:80"
    · exact absurd (h.mp hb) (by decide)
    · rfl

/-- C4: under a single-entry `NoProxy` whose processed token starts with a
dot, and for a canonical address not excluded by the loopback rule,
`useProxy` skips proxying exactly when the lower-cased, port-stripped host
ends with the token or equals the token with its leading dot removed. -/
theorem claim4_dot_token_match (hp hsp tok addr host port p' addr' : String)
    (hsplit : splitHostPort addr = some (host, port))
    (hlocal : host ≠ "localhost")
    (hloop : loopbackIP host = false)
    (hstar : tok ≠ "*")
    (hcomma : ',' ∉ tok.data)
    (hp' : p' = portStrip (toLowerGo (trimSpace tok)))
    (hpne : p' ≠ "")
    (hdot : p'.data.headD ' ' = '.')
    (haddr' : addr' = portStrip (toLowerGo (trimSpace addr))) :
    useProxy ⟨hp, hsp, tok⟩ addr = false ↔
      (p'.data.isSuffixOf addr'.data = true ∨ addr' = ⟨p'.data.drop 1⟩) := by
  rw [useProxy_single_token hsplit (beq_false_of_ne hlocal) hloop
    (beq_false_of_ne hstar) hcomma, ← haddr']
  have hp0 : toLowerGo (trimSpace tok) ≠ "" := by
    intro h0
    apply hpne
    rw [hp', h0]
    rfl
  unfold noProxyMatch
  rw [length_beq_zero_eq_false hp0]
  simp only [Bool.false_eq_true, if_false]
  rw [← hp', bool_not_eq_false]
  exact noProxyMatchStripped_dot_iff hpne hdot

/-- C4 witness: the token `.foo.com` matches `bar.foo.com:80` and
`foo.com:80` but not `xfoo.com:80`. -/
theorem claim4_witness :
    (useProxy ⟨"", "", ".foo.com"⟩ "bar.foo.com:80" = false ∧
     useProxy ⟨"", "", ".foo.com"⟩ "foo.com:80" = false) ∧
    useProxy ⟨"", "", ".foo.com"⟩ "xfoo.com:80" = true := by
  refine ⟨⟨?_, ?_⟩, ?_⟩
  · exact (claim4_dot_token_match "" "" ".foo.com" "bar.foo.com:80"
      "bar.foo.com" "80" ".foo.com" "bar.foo.com" rfl (by decide) rfl
      (by decide) (by decide) rfl (by decide) (by decide) rfl).mpr (Or.inl rfl)
  · exact (claim4_dot_token_match "" "" ".foo.com" "foo.com:80"
      "foo.com" "80" ".foo.com" "foo.com" rfl (by decide) rfl
      (by decide) (by decide) rfl (by decide) (by decide) rfl).mpr (Or.inr rfl)
  · have h := claim4_dot_token_match "" "" ".foo.com" "xfoo.com:80"
      "xfoo.com" "80" ".foo.com" "xfoo.com" rfl (by decide) rfl
      (by decide) (by decide) rfl (by decide) (by decide) rfl
    cases hb : useProxy ⟨"", "", ".foo.com"⟩ "xfoo.com:80"
    · exact absurd (h.mp hb) (by decide)
    · rfl

/-! Lemmas for C10: ASCII preservation through the matcher's string
operations. -/

lemma toNat_ofNat_of_lt {n : Nat} (h : n < 128) : (Char.ofNat n).toNat = n := by
  unfold Char.ofNat
  rw [dif_pos (Or.inl (by omega))]
  rfl

lemma charLower_toNat_lt {c : Char} (h : c.toNat < 128) : (charLower c).toNat < 128 := by
  unfold charLower
  by_cases hc : 65 ≤ c.toNat ∧ c.toNat ≤ 90
  · rw [if_pos hc, toNat_ofNat_of_lt (by omega)]
    omega
  · rw [if_neg hc, if_neg (by omega), if_neg (by omega)]
    exact h

lemma all_of_sublist {p : Char → Bool} {l₁ l₂ : List Char} (h : List.Sublist l₁ l₂)
    (ha : l₂.all p = true) : l₁.all p = true := by
  rw [List.all_eq_true] at ha ⊢
  exact fun x hx => ha x (h.subset hx)

lemma trimSpaceL_sublist (l : List Char) : List.Sublist (trimSpaceL l) l := by
  have hb : List.Sublist ((l.dropWhile goIsSpace).reverse.dropWhile goIsSpace)
      (l.dropWhile goIsSpace).reverse := List.dropWhile_sublist _
  have hbr := hb.reverse
  rw [List.reverse_reverse] at hbr
  exact hbr.trans (List.dropWhile_sublist _)

lemma dropWhile_eq_self_of_all_false {p : Char → Bool} {l : List Char}
    (h : ∀ c ∈ l, p c = false) : l.dropWhile p = l := by
  cases l with
  | nil => rfl
  | cons c t =>
    rw [List.dropWhile_cons, h c (List.mem_cons_self c t)]
    simp

lemma trimSpaceL_eq_self {l : List Char} (h : ∀ c ∈ l, goIsSpace c = false) :
    trimSpaceL l = l := by
  unfold trimSpaceL
  rw [dropWhile_eq_self_of_all_false h,
    dropWhile_eq_self_of_all_false (fun c hc => h c (List.mem_reverse.mp hc)),
    List.reverse_reverse]

lemma lastIndexC_of_not_mem {l : List Char} {c : Char} (h : c ∉ l) :
    lastIndexC l c = -1 := by
  induction l with
  | nil => rfl
  | cons x t ih =>
    have hx : (x == c) = false := by
      apply beq_false_of_ne
      intro he
      apply h
      rw [← he]
      exact List.mem_cons_self x t
    unfold lastIndexC
    rw [ih (fun hm => h (List.mem_cons_of_mem _ hm))]
    rw [if_neg (by omega), hx, if_neg (by simp)]

lemma neg_one_le_lastIndexC (l : List Char) (c : Char) : -1 ≤ lastIndexC l c := by
  induction l with
  | nil => exact le_refl _
  | cons x t ih =>
    unfold lastIndexC
    by_cases h : (0 : Int) ≤ lastIndexC t c
    · rw [if_pos h]
      omega
    · rw [if_neg h]
      by_cases hx : (x == c) = true
      · rw [hx, if_pos rfl]
        omega
      · rw [Bool.not_eq_true] at hx
        rw [hx, if_neg (by simp)]

lemma hasPort_eq_false_of_no_colon {s : String} (h : ':' ∉ s.data) :
    hasPort s = false := by
  unfold hasPort
  rw [lastIndexC_of_not_mem h]
  have := neg_one_le_lastIndexC s.data ']'
  exact decide_eq_false (by omega)

lemma portStrip_of_no_colon {s : String} (h : ':' ∉ s.data) : portStrip s = s := by
  unfold portStrip
  rw [hasPort_eq_false_of_no_colon h]
  simp

/-- C10 counterexample: the request host `\u212A.com` (KELVIN SIGN) is
non-ASCII and IDNA-converts to the ASCII name `k.com` (UTS#46 maps U+212A
to `k`), yet a `NoProxy` entry written as the same Unicode name also
lower-cases to `k.com` (`strings.ToLower` maps U+212A to `k` as well), so
the entry matches the canonical address `k.com:80` and `useProxy` skips
proxying — refuting the claim that such an entry never matches, at an input
where every other premise of the claim holds (successful conversion,
comma/colon/whitespace-free hostname, no localhost/loopback exclusion). -/
theorem claim10_counterexample :
    isASCII "\u212A.com" = false ∧
    toASCIIKelvin "\u212A.com" = some "k.com" ∧
    isASCII "k.com" = true ∧
    stripPort (URL.mk "http" "\u212A.com").host = "\u212A.com" ∧
    canonicalAddr toASCIIKelvin ⟨"http", "\u212A.com"⟩ = "k.com:80" ∧
    splitHostPort "k.com:80" = some ("k.com", "80") ∧
    "k.com" ≠ "localhost" ∧
    loopbackIP "k.com" = false ∧
    useProxy ⟨"proxy", "", "\u212A.com"⟩ "k.com:80" = false := by
  exact ⟨rfl, rfl, rfl, rfl, rfl, rfl, by decide, rfl, rfl⟩

/-- C10 (amended): IDNA conversion is applied only to the request host
inside `canonicalAddr`, never to `NoProxy` entries, which are only
lower-cased, trimmed and port-stripped.  For a request whose hostname is
non-ASCII and IDNA-converts successfully (so the canonical address is
ASCII), a comma-free `NoProxy` entry written as that same Unicode name
never matches the request provided the entry still contains a non-ASCII
character after trimming, lower-casing and port-stripping — the proviso
the counterexample forces, since lower-casing maps U+0130 and U+212A into
ASCII, where the entry can match the converted host — and `useProxy`
allows proxying unless another rule excludes the address. -/
theorem claim10_amended
    (toASCII : String → Option String) (u : URL) (hp hsp : String)
    (host addr a h0 p0 : String)
    (hhost : host = stripPort u.host)
    (haddr : addr = canonicalAddr toASCII u)
    (hnonascii : isASCII host = false)
    (hidna : toASCII host = some a)
    (haascii : isASCII a = true)
    (hcomma : ',' ∉ host.data)
    (hkeep : isASCII (portStrip (toLowerGo (trimSpace host))) = false)
    (haddrascii : isASCII addr = true)
    (hsplit : splitHostPort addr = some (h0, p0))
    (hlocal : h0 ≠ "localhost")
    (hloop : loopbackIP h0 = false) :
    useProxy ⟨hp, hsp, host⟩ addr = true := by
  obtain ⟨c0, hc0mem, hc0⟩ := List.all_eq_false.mp hkeep
  simp only [decide_eq_true_eq] at hc0
  have hge : 128 ≤ c0.toNat := by omega
  have hpne : portStrip (toLowerGo (trimSpace host)) ≠ "" := by
    intro h0'
    rw [h0'] at hc0mem
    exact absurd hc0mem (List.not_mem_nil c0)
  have hp1ne : toLowerGo (trimSpace host) ≠ "" := by
    intro h0'
    apply hpne
    rw [h0']
    rfl
  have h1 : (trimSpace addr).data.all (fun c => decide (c.toNat < 128)) = true :=
    all_of_sublist (trimSpaceL_sublist addr.data) haddrascii
  have h2 : (toLowerGo (trimSpace addr)).data.all
      (fun c => decide (c.toNat < 128)) = true := by
    rw [List.all_eq_true]
    intro x hx
    obtain ⟨c, hc, rfl⟩ := List.mem_map.mp hx
    have := List.all_eq_true.mp h1 c hc
    simp only [decide_eq_true_eq] at this ⊢
    exact charLower_toNat_lt this
  have hA'ascii : ∀ c ∈ (portStrip (toLowerGo (trimSpace addr))).data,
      c.toNat < 128 := by
    intro c hc
    have hsub : List.Sublist (portStrip (toLowerGo (trimSpace addr))).data
        (toLowerGo (trimSpace addr)).data := by
      unfold portStrip
      by_cases hb : hasPort (toLowerGo (trimSpace addr)) = true
      · rw [hb, if_pos rfl]
        exact List.take_sublist _ _
      · rw [Bool.not_eq_true] at hb
        rw [hb, if_neg (by simp)]
    have := List.all_eq_true.mp (all_of_sublist hsub h2) c hc
    simpa using this
  have hmatch : noProxyMatchStripped (portStrip (toLowerGo (trimSpace addr)))
      (portStrip (toLowerGo (trimSpace host))) = false := by
    unfold noProxyMatchStripped
    have hne : portStrip (toLowerGo (trimSpace addr)) ≠
        portStrip (toLowerGo (trimSpace host)) := by
      intro he
      have hmem : c0 ∈ (portStrip (toLowerGo (trimSpace addr))).data := by
        rw [he]
        exact hc0mem
      have := hA'ascii c0 hmem
      omega
    rw [beq_false_of_ne hne]
    simp only [Bool.false_eq_true, if_false]
    rw [length_beq_zero_eq_false hpne]
    simp only [Bool.false_eq_true, if_false]
    have hsuff : (portStrip (toLowerGo (trimSpace host))).data.isSuffixOf
        (portStrip (toLowerGo (trimSpace addr))).data = false := by
      cases hb : (portStrip (toLowerGo (trimSpace host))).data.isSuffixOf
          (portStrip (toLowerGo (trimSpace addr))).data
      · rfl
      · exfalso
        rw [List.isSuffixOf_iff_suffix] at hb
        have := hA'ascii c0 (hb.subset hc0mem)
        omega
    by_cases hh : ((portStrip (toLowerGo (trimSpace host))).data.headD ' ' == '.') = true
    · rw [hh, if_pos rfl, hsuff]
      simp only [Bool.false_or]
      apply beq_false_of_ne
      intro he
      have hdot : (portStrip (toLowerGo (trimSpace host))).data.headD ' ' = '.' := by
        simpa using hh
      have hc0drop : c0 ∈ (portStrip (toLowerGo (trimSpace host))).data.drop 1 := by
        cases hld : (portStrip (toLowerGo (trimSpace host))).data with
        | nil =>
          rw [hld] at hc0mem
          exact absurd hc0mem (List.not_mem_nil _)
        | cons x t =>
          rw [hld] at hc0mem hdot
          simp only [List.headD_cons] at hdot
          rw [List.drop_one, List.tail_cons]
          rcases List.mem_cons.mp hc0mem with h | h
          · exfalso
            rw [h, hdot] at hge
            simp at hge
          · exact h
      have hmem : c0 ∈ (portStrip (toLowerGo (trimSpace addr))).data := by
        rw [he]
        exact hc0drop
      have := hA'ascii c0 hmem
      omega
    · rw [Bool.not_eq_true] at hh
      rw [hh, if_neg (by simp), hsuff]
      rfl
  have hmatchFull : noProxyMatch (portStrip (toLowerGo (trimSpace addr))) host = false := by
    unfold noProxyMatch
    rw [length_beq_zero_eq_false hp1ne]
    simp only [Bool.false_eq_true, if_false]
    exact hmatch
  have hstar : host ≠ "*" := by
    intro he
    rw [he] at hkeep
    exact absurd hkeep (by decide)
  rw [useProxy_eq_not_any hsplit (beq_false_of_ne hlocal) hloop (beq_false_of_ne hstar)]
  have hnp : (⟨hp, hsp, host⟩ : Config).NoProxy = host := rfl
  rw [hnp, goSplit_no_comma hcomma]
  simp [List.any_cons, List.any_nil, hmatchFull]

/-- C10 witness for the amended theorem: request host `é` (non-ASCII, and
still non-ASCII after lower-casing) IDNA-converted by a stub to `xn--x`,
with `NoProxy` set to the same Unicode name `é`: proxying is allowed. -/
theorem claim10_witness :
    useProxy ⟨"proxy", "", "é"⟩ "xn--x:80" = true :=
  claim10_amended (fun _ => some "xn--x") ⟨"http", "é"⟩ "proxy" ""
    "é" "xn--x:80" "xn--x" "xn--x" "80" rfl rfl (by decide) rfl (by decide)
    (by decide) (by decide) (by decide) rfl (by decide) rfl

end HttpProxy
